import Mathlib

/-!
Shallow embedding of the PLC-Communication gateway
(`src/plc_lib.py` — the Device Interface, class `DeltaPLC` — and
`src/plc_api.py` — the HTTP Request Façade).

Modbus transactions issued on the serial transport are recorded as an
explicit `Event` transcript; the transport itself (pymodbus client plus
the attached PLC) is modelled as a `Device` oracle giving the outcome of
each possible transaction.  Connection state (`self.connected`) is a
`Bool` threaded through every operation.  Fallible Python code that
returns `None` on failure becomes `Option`; code returning `True`/`False`
becomes `Bool`.
-/

set_option autoImplicit false

namespace PLC

/-- A transaction (or other externally visible step) performed by the
Device Interface: the four Modbus read/write kinds used by the code plus
connect attempts and the fixed settle delay. -/
inductive Event where
  | connectAttempt (ok : Bool)
  | sleepMs (ms : Nat)
  | readHolding (addr count : Nat)
  | readCoils (addr count : Nat)
  | readDiscrete (addr count : Nat)
  | writeRegister (addr : Nat) (value : Int)
  | writeCoilsMulti (addr : Nat) (values : List Bool)
  | writeCoilSingle (addr : Nat) (value : Bool)
  deriving DecidableEq

/-- Oracle for the serial transport and the PLC behind it: the outcome of
`connect()` and of each Modbus transaction, keyed by wire address (and
payload for writes).  `none` for a read covers both an error response and
an exception; `false` for a write covers `response.isError()` and an
exception. -/
structure Device where
  connectOk : Bool
  readHoldingResp : Nat → Nat → Option (List Nat)
  readCoilsResp : Nat → Nat → Option (List Bool)
  readDiscreteResp : Nat → Nat → Option (List Bool)
  writeRegisterOk : Nat → Int → Bool
  writeCoilsMultiOk : Nat → List Bool → Bool
  writeCoilSingleOk : Nat → Bool → Bool

/-- `DeltaPLC.D_OFFSET` — base wire address of the D holding registers. -/
def D_OFFSET : Nat := 0x1000

/-- `DeltaPLC.M_OFFSET` — base wire address of the M coils (Coils-A). -/
def M_OFFSET : Nat := 0x0800

/-- `DeltaPLC.X_OFFSET` — base wire address of the X discrete inputs. -/
def X_OFFSET : Nat := 0x0400

/-- `DeltaPLC.Y_OFFSET` — base wire address of the Y outputs (Coils-B). -/
def Y_OFFSET : Nat := 0x0500

/-- `DeltaPLC.ensure_connected`: when already connected do nothing; when
not connected make one `connect()` attempt, which sets `self.connected`
to its outcome.  Returns (usable?, new connected flag, events). -/
def ensure_connected (dev : Device) (conn : Bool) : Bool × Bool × List Event :=
  if conn then (true, true, [])
  else (dev.connectOk, dev.connectOk, [Event.connectAttempt dev.connectOk])

/-- `DeltaPLC.read_d_registers(start, count)`: guard with
`ensure_connected`, then one `read_holding_registers` transaction at
`D_OFFSET + start`; returns `response.registers` unchanged on success,
`None` on error or exception. -/
def read_d_registers (dev : Device) (conn : Bool) (start count : Nat) :
    Option (List Nat) × Bool × List Event :=
  let (ok, conn1, evs) := ensure_connected dev conn
  if ok then
    (dev.readHoldingResp (D_OFFSET + start) count, conn1,
     evs ++ [Event.readHolding (D_OFFSET + start) count])
  else (none, conn1, evs)

/-- `DeltaPLC.read_m_coils(start, count)`: guard with `ensure_connected`,
then one `read_coils` transaction at `M_OFFSET + start`; returns
`response.bits[:count]` on success, `None` on error or exception. -/
def read_m_coils (dev : Device) (conn : Bool) (start count : Nat) :
    Option (List Bool) × Bool × List Event :=
  let (ok, conn1, evs) := ensure_connected dev conn
  if ok then
    ((dev.readCoilsResp (M_OFFSET + start) count).map (fun bits => bits.take count),
     conn1, evs ++ [Event.readCoils (M_OFFSET + start) count])
  else (none, conn1, evs)

/-- `DeltaPLC.read_x_inputs(start, count)`: guard with `ensure_connected`,
then one `read_discrete_inputs` transaction at `X_OFFSET + start`;
returns `response.bits[:count]` on success. -/
def read_x_inputs (dev : Device) (conn : Bool) (start count : Nat) :
    Option (List Bool) × Bool × List Event :=
  let (ok, conn1, evs) := ensure_connected dev conn
  if ok then
    ((dev.readDiscreteResp (X_OFFSET + start) count).map (fun bits => bits.take count),
     conn1, evs ++ [Event.readDiscrete (X_OFFSET + start) count])
  else (none, conn1, evs)

/-- `DeltaPLC.read_y_outputs(start, count)`: guard with
`ensure_connected`, then one `read_coils` transaction at
`Y_OFFSET + start`; returns `response.bits[:count]` on success. -/
def read_y_outputs (dev : Device) (conn : Bool) (start count : Nat) :
    Option (List Bool) × Bool × List Event :=
  let (ok, conn1, evs) := ensure_connected dev conn
  if ok then
    ((dev.readCoilsResp (Y_OFFSET + start) count).map (fun bits => bits.take count),
     conn1, evs ++ [Event.readCoils (Y_OFFSET + start) count])
  else (none, conn1, evs)

/-- `DeltaPLC.write_d_register(address, value)`: guard with
`ensure_connected`, then one `write_register` transaction at
`D_OFFSET + address`; `True` iff the response is not an error. -/
def write_d_register (dev : Device) (conn : Bool) (address : Nat) (value : Int) :
    Bool × Bool × List Event :=
  let (ok, conn1, evs) := ensure_connected dev conn
  if ok then
    (dev.writeRegisterOk (D_OFFSET + address) value, conn1,
     evs ++ [Event.writeRegister (D_OFFSET + address) value])
  else (false, conn1, evs)

/-- `DeltaPLC._write_m_coil_alt(address, state)`: the fallback single-coil
`write_coil` transaction at `M_OFFSET + address`; no connection guard of
its own. -/
def write_m_coil_alt (dev : Device) (address : Nat) (state : Bool) :
    Bool × List Event :=
  (dev.writeCoilSingleOk (M_OFFSET + address) state,
   [Event.writeCoilSingle (M_OFFSET + address) state])

/-- `DeltaPLC.write_m_coil(address, state)`: guard with
`ensure_connected`; issue a multi-coil `write_coils` transaction with the
single value `[state]` at `M_OFFSET + address`.  If that transaction
errors, return `False`.  Otherwise `time.sleep(0.05)`, re-read the same
offset with count 1 via `read_m_coils`, and: if the read-back is truthy
and its first bit equals `state`, return `True`; otherwise fall back to
`_write_m_coil_alt` and return its result. -/
def write_m_coil (dev : Device) (conn : Bool) (address : Nat) (state : Bool) :
    Bool × Bool × List Event :=
  let (ok, conn1, evs) := ensure_connected dev conn
  if ok then
    let wev := Event.writeCoilsMulti (M_OFFSET + address) [state]
    if dev.writeCoilsMultiOk (M_OFFSET + address) [state] then
      let (verify, conn2, revs) := read_m_coils dev conn1 address 1
      let pre := evs ++ [wev, Event.sleepMs 50] ++ revs
      match verify with
      | some (b :: _) =>
          if b = state then (true, conn2, pre)
          else
            let (r, aevs) := write_m_coil_alt dev address state
            (r, conn2, pre ++ aevs)
      | _ =>
          let (r, aevs) := write_m_coil_alt dev address state
          (r, conn2, pre ++ aevs)
    else (false, conn1, evs ++ [wev])
  else (false, conn1, evs)

/-- `DeltaPLC.write_y_output(address, state)`: guard with
`ensure_connected`, then one single-coil `write_coil` transaction at
`Y_OFFSET + address`; `True` iff the response is not an error. -/
def write_y_output (dev : Device) (conn : Bool) (address : Nat) (state : Bool) :
    Bool × Bool × List Event :=
  let (ok, conn1, evs) := ensure_connected dev conn
  if ok then
    (dev.writeCoilSingleOk (Y_OFFSET + address) state, conn1,
     evs ++ [Event.writeCoilSingle (Y_OFFSET + address) state])
  else (false, conn1, evs)

/-! ### Status aggregation (`DeltaPLC.get_all_status` and the façade's `get_status`) -/

/-- The aggregate status dictionary built by `DeltaPLC.get_all_status`:
timestamp, connection flag, and one sub-dictionary per region (each
initialised empty, populated only when that region's read is truthy).
Sub-dictionaries are insertion-ordered association lists. -/
structure AllStatus where
  timestamp : String
  connected : Bool
  d_registers : List (String × Nat)
  m_coils : List (String × Bool)
  x_inputs : List (String × Bool)
  y_outputs : List (String × Bool)
  deriving DecidableEq

/-- Helper for `{f'{tag}{start+i}': val for i, val in enumerate(vals)}`. -/
def labelFrom {α : Type} (tag : String) (start : Nat) (vals : List α) :
    List (String × α) :=
  vals.enum.map (fun p => (tag ++ toString (start + p.1), p.2))

/-- One region sub-dictionary of `get_all_status`: populated from the
read result when it is truthy (`if d_values:` — not `None` and not
empty), left empty otherwise. -/
def regionSection {α : Type} (tag : String) (res : Option (List α)) :
    List (String × α) :=
  match res with
  | some l => if l.isEmpty then [] else labelFrom tag 0 l
  | none => []

/-- `DeltaPLC.get_all_status()`: build the dictionary with the current
timestamp and `self.connected`, then read D0..D9, M0..M9, X0..X7, Y0..Y7
in order, populating each sub-dictionary only when its read is truthy.
The `except` branch (returning `None`) is kept in the type but is
unreachable here because every region read already catches its own
failures. -/
def get_all_status (dev : Device) (conn : Bool) (now : String) :
    Option AllStatus × Bool × List Event :=
  let (dres, c1, e1) := read_d_registers dev conn 0 10
  let (mres, c2, e2) := read_m_coils dev c1 0 10
  let (xres, c3, e3) := read_x_inputs dev c2 0 8
  let (yres, c4, e4) := read_y_outputs dev c3 0 8
  (some { timestamp := now
          connected := conn
          d_registers := regionSection "D" dres
          m_coils := regionSection "M" mres
          x_inputs := regionSection "X" xres
          y_outputs := regionSection "Y" yres },
   c4, e1 ++ e2 ++ e3 ++ e4)

/-- `get_status` (route `GET /api/status` in `plc_api.py`): call
`get_all_status`; when truthy, additionally read four M coils starting at
offset 100 via `read_m_coils(100, 4)` and, when that read is truthy,
merge its four bits into `m_coils` as `M100..M103` (indexing past the end
of a shorter truthy list raises, i.e. a 500 error response, modelled as
`none`).  `none` overall stands for the 500 error response. -/
def get_status (dev : Device) (conn : Bool) (now : String) :
    Option AllStatus × Bool × List Event :=
  let (st?, c1, e1) := get_all_status dev conn now
  match st? with
  | some st =>
      let (m4, c2, e2) := read_m_coils dev c1 100 4
      match m4 with
      | some (b0 :: b1 :: b2 :: b3 :: _) =>
          (some { st with m_coils :=
                    st.m_coils ++ [("M100", b0), ("M101", b1), ("M102", b2), ("M103", b3)] },
           c2, e1 ++ e2)
      | some [] => (some st, c2, e1 ++ e2)
      | some _ => (none, c2, e1 ++ e2)
      | none => (some st, c2, e1 ++ e2)
  | none => (none, c1, e1)

/-- Projection used to state facts about the served snapshot's `m_coils`
section (empty when the route answered with an error response). -/
def mCoilsOf : Option AllStatus → List (String × Bool)
  | some st => st.m_coils
  | none => []

/-! ### Request Façade handlers (`plc_api.py`) -/

/-- Response of the register-write route `POST /api/d/<address>`. -/
inductive WriteResp where
  | ok (address : String) (value : Int)
  | badRequest (msg : String)
  | failed (msg : String) (connected : Bool)
  deriving DecidableEq

/-- `d_register` (POST branch): `value = int(data.get('value', 0))` — the
absent field defaults to `0`; reject with 400 when outside `[0, 65535]`,
otherwise call `write_d_register(address, value)` and answer 200 or 500. -/
def d_register_post (dev : Device) (conn : Bool) (address : Nat)
    (value? : Option Int) : WriteResp × Bool × List Event :=
  let value := value?.getD 0
  if value < 0 ∨ 65535 < value then
    (WriteResp.badRequest "Value must be 0-65535", conn, [])
  else
    let (ok, conn1, evs) := write_d_register dev conn address value
    if ok then (WriteResp.ok ("D" ++ toString address) value, conn1, evs)
    else (WriteResp.failed ("Failed to write D" ++ toString address) conn1, conn1, evs)

/-- Response of the bulk range read route `GET /api/d/range/<start>/<count>`. -/
inductive RangeResp where
  | ok (start count : Nat) (registers : List (String × Nat))
  | badRequest (msg : String)
  | failed (msg : String)
  deriving DecidableEq

/-- `d_register_range`: reject with 400 when `count > 100`, otherwise
call `read_d_registers(start, count)` and label the values `D{start+i}`. -/
def d_register_range (dev : Device) (conn : Bool) (start count : Nat) :
    RangeResp × Bool × List Event :=
  if 100 < count then
    (RangeResp.badRequest "Maximum 100 registers per request", conn, [])
  else
    let (vals?, conn1, evs) := read_d_registers dev conn start count
    match vals? with
    | some vals => (RangeResp.ok start count (labelFrom "D" start vals), conn1, evs)
    | none => (RangeResp.failed "Failed to read registers", conn1, evs)

/-- Response of the coil/output write routes. -/
inductive CoilResp where
  | ok (address : String) (state : Bool)
  | failed (msg : String) (connected : Bool)
  deriving DecidableEq

/-- `m_coil` (POST branch): `state = bool(data.get('state', False))` —
the absent field defaults to `False`; call `write_m_coil`. -/
def m_coil_post (dev : Device) (conn : Bool) (address : Nat)
    (state? : Option Bool) : CoilResp × Bool × List Event :=
  let state := state?.getD false
  let (ok, conn1, evs) := write_m_coil dev conn address state
  if ok then (CoilResp.ok ("M" ++ toString address) state, conn1, evs)
  else (CoilResp.failed ("Failed to write M" ++ toString address) conn1, conn1, evs)

/-- `y_output` (POST branch): `state = bool(data.get('state', False))` —
the absent field defaults to `False`; call `write_y_output`. -/
def y_output_post (dev : Device) (conn : Bool) (address : Nat)
    (state? : Option Bool) : CoilResp × Bool × List Event :=
  let state := state?.getD false
  let (ok, conn1, evs) := write_y_output dev conn address state
  if ok then (CoilResp.ok ("Y" ++ toString address) state, conn1, evs)
  else (CoilResp.failed ("Failed to write Y" ++ toString address) conn1, conn1, evs)

/-! ### Bulk operations (`POST /api/bulk/m`, `POST /api/bulk/y`) -/

/-- Response body of the bulk write routes.  `results` is the per-address
dictionary (keyed here by the numeric address; the route formats the key
as `M{a}`/`Y{a}`). -/
structure BulkResult where
  success : Bool
  total : Nat
  succeeded : Nat
  results : List (Nat × Bool)
  deriving DecidableEq

/-- Python-dict insertion: overwrite in place when the key exists,
append otherwise. -/
def dictInsert (k : Nat) (v : Bool) : List (Nat × Bool) → List (Nat × Bool)
  | [] => [(k, v)]
  | (k', v') :: rest =>
      if k' = k then (k, v) :: rest else (k', v') :: dictInsert k v rest

/-- The `for address_str, state in coils.items():` loop shared by both
bulk routes, abstracted over the per-address write (`write_m_coil` or
`write_y_output`), with the results dictionary, success count, and event
transcript as accumulators. -/
def bulk_steps (w : Bool → Nat → Bool → Bool × Bool × List Event) :
    Bool → List (Nat × Bool) → List (Nat × Bool) → Nat → List Event →
    List (Nat × Bool) × Nat × Bool × List Event
  | conn, [], results, cnt, evs => (results, cnt, conn, evs)
  | conn, (a, s) :: rest, results, cnt, evs =>
      let (ok, conn1, evs1) := w conn a s
      bulk_steps w conn1 rest (dictInsert a ok results)
        (cnt + (if ok then 1 else 0)) (evs ++ evs1)

/-- `bulk_write_m` (route `POST /api/bulk/m`): run the loop with
`write_m_coil`, then answer with `success == (succeeded == total)`,
`total = len(coils)`, `succeeded`, and the per-address results. -/
def bulk_write_m (dev : Device) (conn : Bool) (coils : List (Nat × Bool)) :
    BulkResult × Bool × List Event :=
  let (results, cnt, conn1, evs) :=
    bulk_steps (fun c a s => write_m_coil dev c a s) conn coils [] 0 []
  ({ success := cnt == coils.length
     total := coils.length
     succeeded := cnt
     results := results }, conn1, evs)

/-- `bulk_write_y` (route `POST /api/bulk/y`): same loop with
`write_y_output`. -/
def bulk_write_y (dev : Device) (conn : Bool) (outputs : List (Nat × Bool)) :
    BulkResult × Bool × List Event :=
  let (results, cnt, conn1, evs) :=
    bulk_steps (fun c a s => write_y_output dev c a s) conn outputs [] 0 []
  ({ success := cnt == outputs.length
     total := outputs.length
     succeeded := cnt
     results := results }, conn1, evs)

/-- Wire address carried by an event, when it is a Modbus transaction. -/
def eventAddr : Event → Option Nat
  | Event.connectAttempt _ => none
  | Event.sleepMs _ => none
  | Event.readHolding a _ => some a
  | Event.readCoils a _ => some a
  | Event.readDiscrete a _ => some a
  | Event.writeRegister a _ => some a
  | Event.writeCoilsMulti a _ => some a
  | Event.writeCoilSingle a _ => some a

/-! ### Concrete devices used for witnesses and counterexamples -/

/-- A healthy transport: connecting succeeds, every transaction succeeds.
Holding registers read back 7; all coils and inputs read back `false`,
except the Coils-B (Y) block starting at logical offset 100, which reads
back `true` — so Coils-A and Coils-B disagree there. -/
def devMain : Device where
  connectOk := true
  readHoldingResp := fun _ c => some (List.replicate c 7)
  readCoilsResp := fun a c =>
    if a = Y_OFFSET + 100 then some (List.replicate c true)
    else some (List.replicate c false)
  readDiscreteResp := fun _ c => some (List.replicate c false)
  writeRegisterOk := fun _ _ => true
  writeCoilsMultiOk := fun _ _ => true
  writeCoilSingleOk := fun _ _ => true

/-- A dead transport: connecting fails and every transaction fails. -/
def devDown : Device where
  connectOk := false
  readHoldingResp := fun _ _ => none
  readCoilsResp := fun _ _ => none
  readDiscreteResp := fun _ _ => none
  writeRegisterOk := fun _ _ => false
  writeCoilsMultiOk := fun _ _ => false
  writeCoilSingleOk := fun _ _ => false

/-! ### Shared helper lemmas -/

/-- The transcript common to every completed `write_m_coil` attempt:
possible reconnect, then the multi-coil write, the 50 ms settle delay,
and the verifying read of the same offset with count 1. -/
def mWriteBase (conn : Bool) (address : Nat) (state : Bool) : List Event :=
  (if conn then [] else [Event.connectAttempt true]) ++
  [Event.writeCoilsMulti (M_OFFSET + address) [state], Event.sleepMs 50,
   Event.readCoils (M_OFFSET + address) 1]

theorem ensure_connected_usable (dev : Device) (conn : Bool)
    (hconn : conn = true ∨ dev.connectOk = true) :
    ensure_connected dev conn =
      (true, true, if conn then [] else [Event.connectAttempt true]) := by
  rcases hconn with h | h
  · subst h; simp [ensure_connected]
  · cases conn <;> simp [ensure_connected, h]

@[simp] theorem ensure_connected_true (dev : Device) :
    ensure_connected dev true = (true, true, []) := by
  simp [ensure_connected]

/-- A healthy transport whose verifying reads always fail: connecting and
writing succeed, every read transaction errors out. -/
def devNoVerify : Device where
  connectOk := true
  readHoldingResp := fun _ _ => none
  readCoilsResp := fun _ _ => none
  readDiscreteResp := fun _ _ => none
  writeRegisterOk := fun _ _ => true
  writeCoilsMultiOk := fun _ _ => true
  writeCoilSingleOk := fun _ _ => true

/-! ### Claim theorems -/

/-- C1: a Coils-A write (`write_m_coil`) first issues the multi-coil
write; once that transaction succeeds it sleeps 50 ms and re-reads the
same offset with count 1.  When the read-back equals the requested state
it returns success with no fallback call; when the read-back disagrees it
performs exactly one fallback single-coil write and returns that write's
result.  In both paths the transcript ends there: no further retries. -/
theorem write_m_coil_dual_path (dev : Device) (conn : Bool) (address : Nat) (state : Bool)
    (hconn : conn = true ∨ dev.connectOk = true)
    (hw : dev.writeCoilsMultiOk (M_OFFSET + address) [state] = true) :
    (∀ t, dev.readCoilsResp (M_OFFSET + address) 1 = some (state :: t) →
      write_m_coil dev conn address state = (true, true, mWriteBase conn address state)) ∧
    (∀ b t, dev.readCoilsResp (M_OFFSET + address) 1 = some (b :: t) → b ≠ state →
      write_m_coil dev conn address state =
        (dev.writeCoilSingleOk (M_OFFSET + address) state, true,
         mWriteBase conn address state ++ [Event.writeCoilSingle (M_OFFSET + address) state])) := by
  cases conn with
  | true =>
      constructor
      · intro t ht
        simp [write_m_coil, read_m_coils, ensure_connected, hw, ht, mWriteBase,
          write_m_coil_alt]
      · intro b t ht hb
        simp [write_m_coil, read_m_coils, ensure_connected, hw, ht, hb, mWriteBase,
          write_m_coil_alt]
  | false =>
      have h : dev.connectOk = true := by
        rcases hconn with h | h
        · exact absurd h (by simp)
        · exact h
      constructor
      · intro t ht
        simp [write_m_coil, read_m_coils, ensure_connected, h, hw, ht, mWriteBase,
          write_m_coil_alt]
      · intro b t ht hb
        simp [write_m_coil, read_m_coils, ensure_connected, h, hw, ht, hb, mWriteBase,
          write_m_coil_alt]

/-- Witness for C1: on `devMain` (M coils read back `false`), writing
`false` to M5 verifies and stops after the read; writing `true` to M5
fails verification and makes exactly the one fallback single-coil write. -/
theorem write_m_coil_dual_path_witness :
    write_m_coil devMain true 5 false = (true, true, mWriteBase true 5 false) ∧
    write_m_coil devMain true 5 true =
      (devMain.writeCoilSingleOk (M_OFFSET + 5) true, true,
       mWriteBase true 5 true ++ [Event.writeCoilSingle (M_OFFSET + 5) true]) :=
  ⟨(write_m_coil_dual_path devMain true 5 false (Or.inl rfl) (by decide)).1 [] (by decide),
   (write_m_coil_dual_path devMain true 5 true (Or.inl rfl) (by decide)).2 false []
     (by decide) (by decide)⟩

/-- C9: when the initial multi-coil write succeeds but the verifying read
returns no data, the single-coil fallback is still attempted exactly as
in the mismatch case; and success-without-fallback happens precisely when
the read returned data whose first bit equals the requested state. -/
theorem write_m_coil_verify_requires_data (dev : Device) (conn : Bool) (address : Nat)
    (state : Bool)
    (hconn : conn = true ∨ dev.connectOk = true)
    (hw : dev.writeCoilsMultiOk (M_OFFSET + address) [state] = true) :
    (dev.readCoilsResp (M_OFFSET + address) 1 = none →
      write_m_coil dev conn address state =
        (dev.writeCoilSingleOk (M_OFFSET + address) state, true,
         mWriteBase conn address state ++ [Event.writeCoilSingle (M_OFFSET + address) state])) ∧
    ((write_m_coil dev conn address state).1 = true ∧
       Event.writeCoilSingle (M_OFFSET + address) state ∉ (write_m_coil dev conn address state).2.2 ↔
     ∃ t, dev.readCoilsResp (M_OFFSET + address) 1 = some (state :: t)) := by
  have hens := ensure_connected_usable dev conn hconn
  constructor
  · intro hR
    simp [write_m_coil, hens, read_m_coils, hw, hR, mWriteBase, write_m_coil_alt]
  · rcases hR : dev.readCoilsResp (M_OFFSET + address) 1 with _ | l
    · simp [write_m_coil, hens, read_m_coils, hw, hR, mWriteBase, write_m_coil_alt]
    · rcases l with _ | ⟨b, t⟩
      · simp [write_m_coil, hens, read_m_coils, hw, hR, mWriteBase, write_m_coil_alt]
      · by_cases hb : b = state
        · subst hb
          simp [write_m_coil, hens, read_m_coils, hw, hR, mWriteBase, write_m_coil_alt]
        · simp [write_m_coil, hens, read_m_coils, hw, hR, hb, mWriteBase, write_m_coil_alt]

/-- Witness for C9: on `devNoVerify` (reads fail), writing `true` to M2
succeeds at the multi-coil write, the verifying read returns no data, and
the single fallback write is still made. -/
theorem write_m_coil_verify_requires_data_witness :
    write_m_coil devNoVerify true 2 true =
      (devNoVerify.writeCoilSingleOk (M_OFFSET + 2) true, true,
       mWriteBase true 2 true ++ [Event.writeCoilSingle (M_OFFSET + 2) true]) :=
  (write_m_coil_verify_requires_data devNoVerify true 2 true (Or.inl rfl) rfl).1 rfl

/-- C6: every read or write operation first evaluates `ensure_connected`,
which when not connected makes exactly one reconnect attempt and returns
whether the interface is usable; when that single attempt fails every
operation returns its typed failure (`none` for reads, `false` for
writes) with a transcript holding the one connect attempt and no
transaction, so no further reconnect happens within the operation. -/
theorem single_lazy_reconnect (dev : Device) (s c : Nat) (v : Int) (st : Bool)
    (h : dev.connectOk = false) :
    ensure_connected dev true = (true, true, []) ∧
    ensure_connected dev false =
      (dev.connectOk, dev.connectOk, [Event.connectAttempt dev.connectOk]) ∧
    read_d_registers dev false s c = (none, false, [Event.connectAttempt false]) ∧
    read_m_coils dev false s c = (none, false, [Event.connectAttempt false]) ∧
    read_x_inputs dev false s c = (none, false, [Event.connectAttempt false]) ∧
    read_y_outputs dev false s c = (none, false, [Event.connectAttempt false]) ∧
    write_d_register dev false s v = (false, false, [Event.connectAttempt false]) ∧
    write_m_coil dev false s st = (false, false, [Event.connectAttempt false]) ∧
    write_y_output dev false s st = (false, false, [Event.connectAttempt false]) := by
  refine ⟨by simp, by simp [ensure_connected], ?_, ?_, ?_, ?_, ?_, ?_, ?_⟩ <;>
    simp [read_d_registers, read_m_coils, read_x_inputs, read_y_outputs,
      write_d_register, write_m_coil, write_y_output, ensure_connected, h]

/-- Witness for C6: on `devDown` (connect fails), a disconnected read and
a disconnected verified write each make one connect attempt, issue no
transaction, and fail with their typed results. -/
theorem single_lazy_reconnect_witness :
    read_d_registers devDown false 0 1 = (none, false, [Event.connectAttempt false]) ∧
    write_m_coil devDown false 0 true = (false, false, [Event.connectAttempt false]) :=
  ⟨(single_lazy_reconnect devDown 0 1 0 true rfl).2.2.1,
   (single_lazy_reconnect devDown 0 1 0 true rfl).2.2.2.2.2.2.2.1⟩

/-- C8: the four region bases (D `0x1000`, M `0x0800`, X `0x0400`,
Y `0x0500`) are pairwise distinct, and every transaction issued by any
operation carries the wire address `region_base + logical_offset` of that
operation's region. -/
theorem region_addressing (dev : Device) (conn : Bool) (off cnt : Nat) (v : Int) (st : Bool) :
    ([D_OFFSET, M_OFFSET, X_OFFSET, Y_OFFSET] : List Nat).Nodup ∧
    (∀ e ∈ (read_d_registers dev conn off cnt).2.2, ∀ a, eventAddr e = some a →
       a = D_OFFSET + off) ∧
    (∀ e ∈ (read_m_coils dev conn off cnt).2.2, ∀ a, eventAddr e = some a →
       a = M_OFFSET + off) ∧
    (∀ e ∈ (read_x_inputs dev conn off cnt).2.2, ∀ a, eventAddr e = some a →
       a = X_OFFSET + off) ∧
    (∀ e ∈ (read_y_outputs dev conn off cnt).2.2, ∀ a, eventAddr e = some a →
       a = Y_OFFSET + off) ∧
    (∀ e ∈ (write_d_register dev conn off v).2.2, ∀ a, eventAddr e = some a →
       a = D_OFFSET + off) ∧
    (∀ e ∈ (write_m_coil dev conn off st).2.2, ∀ a, eventAddr e = some a →
       a = M_OFFSET + off) ∧
    (∀ e ∈ (write_y_output dev conn off st).2.2, ∀ a, eventAddr e = some a →
       a = Y_OFFSET + off) := by
  refine ⟨by decide, ?_, ?_, ?_, ?_, ?_, ?_, ?_⟩ <;>
  · simp only [read_d_registers, read_m_coils, read_x_inputs, read_y_outputs,
      write_d_register, write_m_coil, write_y_output, write_m_coil_alt, ensure_connected]
    repeat' split
    all_goals intro e he a hae
    all_goals simp at he
    all_goals try casesm* _ ∨ _
    all_goals subst_vars
    all_goals simp [eventAddr] at hae
    all_goals simp_all

/-- Witness for C8: the holding-register read of logical offset 3 on
`devMain` issues its transaction at wire address `4096 + 3`. -/
theorem region_addressing_witness : (4096 + 3 : Nat) = D_OFFSET + 3 :=
  (region_addressing devMain true 3 7 0 false).2.1 (Event.readHolding (4096 + 3) 7)
    (by decide) (4096 + 3) rfl

/-- C4: a register write with a value outside `[0, 65535]` is rejected
with a 400 response and no transaction is attempted; an in-range value is
passed to `write_d_register` unchanged (same transcript, and when
connected the one issued transaction carries exactly that value).
Likewise a bulk range read with `count > 100` is rejected with a 400
before any read. -/
theorem facade_input_validation (dev : Device) (conn : Bool) (address start cnt : Nat)
    (v : Int) (hv : v < 0 ∨ 65535 < v) (hc : 100 < cnt) :
    d_register_post dev conn address (some v) =
      (WriteResp.badRequest "Value must be 0-65535", conn, []) ∧
    d_register_range dev conn start cnt =
      (RangeResp.badRequest "Maximum 100 registers per request", conn, []) ∧
    (∀ w : Int, 0 ≤ w → w ≤ 65535 →
      (d_register_post dev conn address (some w)).2.2 =
        (write_d_register dev conn address w).2.2 ∧
      (conn = true →
        (d_register_post dev conn address (some w)).2.2 =
          [Event.writeRegister (D_OFFSET + address) w])) := by
  refine ⟨by simp [d_register_post, hv], by simp [d_register_range, hc], ?_⟩
  intro w h0 h1
  have hin : ¬(w < 0 ∨ 65535 < w) := by omega
  constructor
  · rcases hw : write_d_register dev conn address w with ⟨ok, c1, evs⟩
    simp [d_register_post, hin, hw]
    cases ok <;> simp
  · intro hcn
    subst hcn
    simp only [d_register_post, write_d_register, ensure_connected]
    repeat' split
    all_goals simp_all
    all_goals omega

/-- Witness for C4: value 70000 and bulk count 101 are both rejected
with 400 on `devMain`, with empty transcripts. -/
theorem facade_input_validation_witness :
    d_register_post devMain true 2 (some 70000) =
      (WriteResp.badRequest "Value must be 0-65535", true, []) ∧
    d_register_range devMain true 0 101 =
      (RangeResp.badRequest "Maximum 100 registers per request", true, []) :=
  ⟨(facade_input_validation devMain true 2 0 101 70000 (by decide) (by decide)).1,
   (facade_input_validation devMain true 2 0 101 70000 (by decide) (by decide)).2.1⟩

/-- C10: a POST body that omits the expected field is not rejected: a
register write without `value` behaves exactly as writing 0, and coil and
output writes without `state` behave exactly as writing `false` — in
each case an actual transaction with the defaulted payload is issued. -/
theorem missing_field_defaults (dev : Device) (address : Nat) :
    (∀ conn,
      d_register_post dev conn address none = d_register_post dev conn address (some 0) ∧
      m_coil_post dev conn address none = m_coil_post dev conn address (some false) ∧
      y_output_post dev conn address none = y_output_post dev conn address (some false) ∧
      ∀ m, (d_register_post dev conn address none).1 ≠ WriteResp.badRequest m) ∧
    Event.writeRegister (D_OFFSET + address) 0 ∈ (d_register_post dev true address none).2.2 ∧
    Event.writeCoilsMulti (M_OFFSET + address) [false] ∈
      (m_coil_post dev true address none).2.2 ∧
    Event.writeCoilSingle (Y_OFFSET + address) false ∈
      (y_output_post dev true address none).2.2 := by
  refine ⟨fun conn => ⟨rfl, rfl, rfl, ?_⟩, ?_, ?_, ?_⟩
  · intro m h
    rcases hw : write_d_register dev conn address 0 with ⟨ok, c1, evs⟩
    simp [d_register_post, hw] at h
    cases ok <;> simp_all
  all_goals
  · simp only [d_register_post, m_coil_post, y_output_post, write_d_register,
      write_m_coil, write_y_output, read_m_coils, write_m_coil_alt, ensure_connected,
      Option.getD]
    repeat' split
    all_goals simp_all

/-- Witness for C10: the register write route with no `value` field on
`devMain` issues a write transaction of the default value 0. -/
theorem missing_field_defaults_witness :
    Event.writeRegister (D_OFFSET + 4) 0 ∈ (d_register_post devMain true 4 none).2.2 :=
  (missing_field_defaults devMain 4).2.1

/-- C5: when the transport transaction succeeds (a register response of
exactly `count` 16-bit values; a bit response of at least `count` bits,
as Modbus pads to byte boundaries), `read_d_registers` returns exactly
`count` unsigned 16-bit values in order, and the three boolean reads each
return exactly `count` booleans, the transport's bits truncated to
`count`. -/
theorem reads_return_count (dev : Device) (conn : Bool) (start count : Nat)
    (hreg : ∀ l, dev.readHoldingResp (D_OFFSET + start) count = some l →
       l.length = count ∧ ∀ x ∈ l, x < 65536)
    (hm : ∀ bits, dev.readCoilsResp (M_OFFSET + start) count = some bits →
       count ≤ bits.length)
    (hx : ∀ bits, dev.readDiscreteResp (X_OFFSET + start) count = some bits →
       count ≤ bits.length)
    (hy : ∀ bits, dev.readCoilsResp (Y_OFFSET + start) count = some bits →
       count ≤ bits.length) :
    (∀ l, (read_d_registers dev conn start count).1 = some l →
       l.length = count ∧ (∀ x ∈ l, x < 65536) ∧
       dev.readHoldingResp (D_OFFSET + start) count = some l) ∧
    (∀ b, (read_m_coils dev conn start count).1 = some b →
       b.length = count ∧ ∃ raw, dev.readCoilsResp (M_OFFSET + start) count = some raw ∧
         b = raw.take count) ∧
    (∀ b, (read_x_inputs dev conn start count).1 = some b →
       b.length = count ∧ ∃ raw, dev.readDiscreteResp (X_OFFSET + start) count = some raw ∧
         b = raw.take count) ∧
    (∀ b, (read_y_outputs dev conn start count).1 = some b →
       b.length = count ∧ ∃ raw, dev.readCoilsResp (Y_OFFSET + start) count = some raw ∧
         b = raw.take count) := by
  refine ⟨?_, ?_, ?_, ?_⟩ <;> intro l hl
  · cases conn <;> cases hco : dev.connectOk <;>
      simp_all [read_d_registers, ensure_connected]
  · cases conn <;> cases hco : dev.connectOk <;>
      simp_all [read_m_coils, ensure_connected] <;>
      rcases hl with ⟨raw, hraw, hl⟩ <;>
      exact ⟨by simp [← hl, List.length_take, hm raw hraw], raw, hraw, hl.symm⟩
  · cases conn <;> cases hco : dev.connectOk <;>
      simp_all [read_x_inputs, ensure_connected] <;>
      rcases hl with ⟨raw, hraw, hl⟩ <;>
      exact ⟨by simp [← hl, List.length_take, hx raw hraw], raw, hraw, hl.symm⟩
  · cases conn <;> cases hco : dev.connectOk <;>
      simp_all [read_y_outputs, ensure_connected] <;>
      rcases hl with ⟨raw, hraw, hl⟩ <;>
      exact ⟨by simp [← hl, List.length_take, hy raw hraw], raw, hraw, hl.symm⟩

/-- Witness for C5: reading three M coils on `devMain` returns exactly
three booleans. -/
theorem reads_return_count_witness : (List.replicate 3 false).length = 3 :=
  ((reads_return_count devMain true 0 3
      (by intro l h
          simp only [show devMain.readHoldingResp (D_OFFSET + 0) 3 =
            some (List.replicate 3 7) from by decide, Option.some.injEq] at h
          subst h
          decide)
      (by intro bits h
          simp only [show devMain.readCoilsResp (M_OFFSET + 0) 3 =
            some (List.replicate 3 false) from by decide, Option.some.injEq] at h
          subst h
          decide)
      (by intro bits h
          simp only [show devMain.readDiscreteResp (X_OFFSET + 0) 3 =
            some (List.replicate 3 false) from by decide, Option.some.injEq] at h
          subst h
          decide)
      (by intro bits h
          simp only [show devMain.readCoilsResp (Y_OFFSET + 0) 3 =
            some (List.replicate 3 false) from by decide, Option.some.injEq] at h
          subst h
          decide)).2.1 (List.replicate 3 false) (by decide)).1


@[simp] theorem read_d_registers_snd (dev : Device) (conn : Bool) (s c : Nat) :
    (read_d_registers dev conn s c).2.1 = (conn || dev.connectOk) := by
  cases conn <;> cases h : dev.connectOk <;> simp [read_d_registers, ensure_connected, h]

@[simp] theorem read_m_coils_snd (dev : Device) (conn : Bool) (s c : Nat) :
    (read_m_coils dev conn s c).2.1 = (conn || dev.connectOk) := by
  cases conn <;> cases h : dev.connectOk <;> simp [read_m_coils, ensure_connected, h]

@[simp] theorem read_x_inputs_snd (dev : Device) (conn : Bool) (s c : Nat) :
    (read_x_inputs dev conn s c).2.1 = (conn || dev.connectOk) := by
  cases conn <;> cases h : dev.connectOk <;> simp [read_x_inputs, ensure_connected, h]

@[simp] theorem read_y_outputs_snd (dev : Device) (conn : Bool) (s c : Nat) :
    (read_y_outputs dev conn s c).2.1 = (conn || dev.connectOk) := by
  cases conn <;> cases h : dev.connectOk <;> simp [read_y_outputs, ensure_connected, h]

theorem read_d_registers_fst (dev : Device) (conn : Bool) (s c : Nat) :
    (read_d_registers dev conn s c).1 =
      if conn || dev.connectOk then dev.readHoldingResp (D_OFFSET + s) c else none := by
  cases conn <;> cases h : dev.connectOk <;> simp [read_d_registers, ensure_connected, h]

theorem read_m_coils_fst (dev : Device) (conn : Bool) (s c : Nat) :
    (read_m_coils dev conn s c).1 =
      if conn || dev.connectOk then
        (dev.readCoilsResp (M_OFFSET + s) c).map (fun bits => bits.take c)
      else none := by
  cases conn <;> cases h : dev.connectOk <;> simp [read_m_coils, ensure_connected, h]

theorem read_x_inputs_fst (dev : Device) (conn : Bool) (s c : Nat) :
    (read_x_inputs dev conn s c).1 =
      if conn || dev.connectOk then
        (dev.readDiscreteResp (X_OFFSET + s) c).map (fun bits => bits.take c)
      else none := by
  cases conn <;> cases h : dev.connectOk <;> simp [read_x_inputs, ensure_connected, h]

theorem read_y_outputs_fst (dev : Device) (conn : Bool) (s c : Nat) :
    (read_y_outputs dev conn s c).1 =
      if conn || dev.connectOk then
        (dev.readCoilsResp (Y_OFFSET + s) c).map (fun bits => bits.take c)
      else none := by
  cases conn <;> cases h : dev.connectOk <;> simp [read_y_outputs, ensure_connected, h]

theorem labelFrom_length {α : Type} (tag : String) (s : Nat) (l : List α) :
    (labelFrom tag s l).length = l.length := by
  simp [labelFrom]

theorem labelFrom_ne_nil {α : Type} (tag : String) (s : Nat) (l : List α) (h : l ≠ []) :
    labelFrom tag s l ≠ [] := by
  intro hnil
  apply h
  have hlen := congrArg List.length hnil
  rw [labelFrom_length] at hlen
  exact List.eq_nil_of_length_eq_zero hlen

theorem regionSection_ne_nil_iff {α : Type} (tag : String) (o : Option (List α))
    (h : ∀ l, o = some l → l ≠ []) :
    (regionSection tag o ≠ [] ↔ o ≠ none) := by
  cases o with
  | none => simp [regionSection]
  | some l =>
      have hl := h l rfl
      simp [regionSection, List.isEmpty_iff, hl, labelFrom_ne_nil tag 0 l hl]



/-- C3: for every combination of per-region read outcomes, the snapshot
never fails: it always carries the timestamp and the connection flag, and
each region sub-section equals exactly what that region's read produced —
populated exactly when the read returned data, empty (omitted) when the
read failed, independently of the other regions. -/
theorem get_all_status_robust (dev : Device) (conn : Bool) (now : String)
    (hd : ∀ l, dev.readHoldingResp (D_OFFSET + 0) 10 = some l → l ≠ [])
    (hm : ∀ l, dev.readCoilsResp (M_OFFSET + 0) 10 = some l → l ≠ [])
    (hx : ∀ l, dev.readDiscreteResp (X_OFFSET + 0) 8 = some l → l ≠ [])
    (hy : ∀ l, dev.readCoilsResp (Y_OFFSET + 0) 8 = some l → l ≠ []) :
    ∃ st, (get_all_status dev conn now).1 = some st ∧
      st.timestamp = now ∧
      st.connected = conn ∧
      st.d_registers = regionSection "D" (read_d_registers dev conn 0 10).1 ∧
      st.m_coils = regionSection "M" (read_m_coils dev (conn || dev.connectOk) 0 10).1 ∧
      st.x_inputs = regionSection "X" (read_x_inputs dev (conn || dev.connectOk) 0 8).1 ∧
      st.y_outputs = regionSection "Y" (read_y_outputs dev (conn || dev.connectOk) 0 8).1 ∧
      (st.d_registers ≠ [] ↔ (read_d_registers dev conn 0 10).1 ≠ none) ∧
      (st.m_coils ≠ [] ↔ (read_m_coils dev (conn || dev.connectOk) 0 10).1 ≠ none) ∧
      (st.x_inputs ≠ [] ↔ (read_x_inputs dev (conn || dev.connectOk) 0 8).1 ≠ none) ∧
      (st.y_outputs ≠ [] ↔ (read_y_outputs dev (conn || dev.connectOk) 0 8).1 ≠ none) := by
  have hdok : ∀ l, (read_d_registers dev conn 0 10).1 = some l → l ≠ [] := by
    intro l h
    rw [read_d_registers_fst] at h
    rcases hor : (conn || dev.connectOk) <;> simp [hor] at h
    exact hd l h
  have hmok : ∀ l, (read_m_coils dev (conn || dev.connectOk) 0 10).1 = some l → l ≠ [] := by
    intro l h
    rw [read_m_coils_fst] at h
    rcases hor : ((conn || dev.connectOk) || dev.connectOk) <;> simp [hor] at h
    rcases h with ⟨raw, hraw, htake⟩
    have := hm raw hraw
    rcases raw with _ | ⟨b, t⟩
    · exact absurd rfl this
    · simp [← htake]
  have hxok : ∀ l, (read_x_inputs dev (conn || dev.connectOk) 0 8).1 = some l → l ≠ [] := by
    intro l h
    rw [read_x_inputs_fst] at h
    rcases hor : ((conn || dev.connectOk) || dev.connectOk) <;> simp [hor] at h
    rcases h with ⟨raw, hraw, htake⟩
    have := hx raw hraw
    rcases raw with _ | ⟨b, t⟩
    · exact absurd rfl this
    · simp [← htake]
  have hyok : ∀ l, (read_y_outputs dev (conn || dev.connectOk) 0 8).1 = some l → l ≠ [] := by
    intro l h
    rw [read_y_outputs_fst] at h
    rcases hor : ((conn || dev.connectOk) || dev.connectOk) <;> simp [hor] at h
    rcases h with ⟨raw, hraw, htake⟩
    have := hy raw hraw
    rcases raw with _ | ⟨b, t⟩
    · exact absurd rfl this
    · simp [← htake]
  rcases hD : read_d_registers dev conn 0 10 with ⟨dres, c1, e1⟩
  have hc1 : c1 = (conn || dev.connectOk) :=
    (congrArg (fun t => t.2.1) hD).symm.trans (read_d_registers_snd dev conn 0 10)
  subst hc1
  rcases hM : read_m_coils dev (conn || dev.connectOk) 0 10 with ⟨mres, c2, e2⟩
  have hc2 : c2 = (conn || dev.connectOk) := by
    have := (congrArg (fun t => t.2.1) hM).symm.trans
      (read_m_coils_snd dev (conn || dev.connectOk) 0 10)
    simpa [Bool.or_assoc] using this
  subst hc2
  rcases hX : read_x_inputs dev (conn || dev.connectOk) 0 8 with ⟨xres, c3, e3⟩
  have hc3 : c3 = (conn || dev.connectOk) := by
    have := (congrArg (fun t => t.2.1) hX).symm.trans
      (read_x_inputs_snd dev (conn || dev.connectOk) 0 8)
    simpa [Bool.or_assoc] using this
  subst hc3
  rcases hY : read_y_outputs dev (conn || dev.connectOk) 0 8 with ⟨yres, c4, e4⟩
  refine ⟨⟨now, conn, regionSection "D" dres, regionSection "M" mres,
      regionSection "X" xres, regionSection "Y" yres⟩,
    by simp [get_all_status, hD, hM, hX, hY], rfl, rfl, ?_, ?_, ?_, ?_, ?_, ?_, ?_, ?_⟩
  · simp [hD]
  · simp [hM]
  · simp [hX]
  · simp [hY]
  · rw [show dres = (read_d_registers dev conn 0 10).1 from by rw [hD]]
    exact regionSection_ne_nil_iff "D" _ hdok
  · rw [show mres = (read_m_coils dev (conn || dev.connectOk) 0 10).1 from by rw [hM]]
    exact regionSection_ne_nil_iff "M" _ hmok
  · rw [show xres = (read_x_inputs dev (conn || dev.connectOk) 0 8).1 from by rw [hX]]
    exact regionSection_ne_nil_iff "X" _ hxok
  · rw [show yres = (read_y_outputs dev (conn || dev.connectOk) 0 8).1 from by rw [hY]]
    exact regionSection_ne_nil_iff "Y" _ hyok



/-- Witness for C3: the snapshot on `devMain` is produced (not a
failure). -/
theorem get_all_status_robust_witness : (get_all_status devMain true "t").1 ≠ none := by
  obtain ⟨st, hst, -⟩ := get_all_status_robust devMain true "t"
    (by intro l h
        simp only [show devMain.readHoldingResp (D_OFFSET + 0) 10 =
          some (List.replicate 10 7) from by decide, Option.some.injEq] at h
        subst h
        decide)
    (by intro l h
        simp only [show devMain.readCoilsResp (M_OFFSET + 0) 10 =
          some (List.replicate 10 false) from by decide, Option.some.injEq] at h
        subst h
        decide)
    (by intro l h
        simp only [show devMain.readDiscreteResp (X_OFFSET + 0) 8 =
          some (List.replicate 8 false) from by decide, Option.some.injEq] at h
        subst h
        decide)
    (by intro l h
        simp only [show devMain.readCoilsResp (Y_OFFSET + 0) 8 =
          some (List.replicate 8 false) from by decide, Option.some.injEq] at h
        subst h
        decide)
  simp [hst]

/-- Full characterisation of `get_all_status`: result record, final
connection flag, and transcript of the four region reads in order. -/
lemma get_all_status_eq (dev : Device) (conn : Bool) (now : String) :
    get_all_status dev conn now =
      (some { timestamp := now, connected := conn,
              d_registers := regionSection "D" (read_d_registers dev conn 0 10).1,
              m_coils := regionSection "M" (read_m_coils dev (conn || dev.connectOk) 0 10).1,
              x_inputs := regionSection "X" (read_x_inputs dev (conn || dev.connectOk) 0 8).1,
              y_outputs := regionSection "Y" (read_y_outputs dev (conn || dev.connectOk) 0 8).1 },
       conn || dev.connectOk,
       (read_d_registers dev conn 0 10).2.2 ++
         (read_m_coils dev (conn || dev.connectOk) 0 10).2.2 ++
         (read_x_inputs dev (conn || dev.connectOk) 0 8).2.2 ++
         (read_y_outputs dev (conn || dev.connectOk) 0 8).2.2) := by
  rcases hD : read_d_registers dev conn 0 10 with ⟨dres, c1, e1⟩
  have hc1 : c1 = (conn || dev.connectOk) :=
    (congrArg (fun t => t.2.1) hD).symm.trans (read_d_registers_snd dev conn 0 10)
  subst hc1
  rcases hM : read_m_coils dev (conn || dev.connectOk) 0 10 with ⟨mres, c2, e2⟩
  have hc2 : c2 = (conn || dev.connectOk) := by
    have := (congrArg (fun t => t.2.1) hM).symm.trans
      (read_m_coils_snd dev (conn || dev.connectOk) 0 10)
    simpa [Bool.or_assoc] using this
  subst hc2
  rcases hX : read_x_inputs dev (conn || dev.connectOk) 0 8 with ⟨xres, c3, e3⟩
  have hc3 : c3 = (conn || dev.connectOk) := by
    have := (congrArg (fun t => t.2.1) hX).symm.trans
      (read_x_inputs_snd dev (conn || dev.connectOk) 0 8)
    simpa [Bool.or_assoc] using this
  subst hc3
  rcases hY : read_y_outputs dev (conn || dev.connectOk) 0 8 with ⟨yres, c4, e4⟩
  have hc4 : c4 = (conn || dev.connectOk) := by
    have := (congrArg (fun t => t.2.1) hY).symm.trans
      (read_y_outputs_snd dev (conn || dev.connectOk) 0 8)
    simpa [Bool.or_assoc] using this
  subst hc4
  simp [get_all_status, hD, hM, hX, hY]

/-- C2 (amended): `GET /api/status` reads, in addition to the fixed
region prefixes, the explicit four-coil block at offsets 100 through 103
from the Coils-A (M coil) region — not from Coils-B — and merges those
four booleans into the aggregate's `m_coils` section as `M100..M103`. -/
theorem get_status_m_block_from_coils_a (dev : Device) (now : String) :
    Event.readCoils (M_OFFSET + 100) 4 ∈ (get_status dev true now).2.2 ∧
    Event.readCoils (Y_OFFSET + 100) 4 ∉ (get_status dev true now).2.2 ∧
    (∀ b0 b1 b2 b3 t,
      dev.readCoilsResp (M_OFFSET + 100) 4 = some (b0 :: b1 :: b2 :: b3 :: t) →
      [("M100", b0), ("M101", b1), ("M102", b2), ("M103", b3)] <:+
        mCoilsOf (get_status dev true now).1) := by
  refine ⟨?_, ?_, ?_⟩
  · simp only [get_status, get_all_status_eq, read_d_registers, read_m_coils,
      read_x_inputs, read_y_outputs, ensure_connected]
    repeat' split
    all_goals simp_all
  · simp only [get_status, get_all_status_eq, read_d_registers, read_m_coils,
      read_x_inputs, read_y_outputs, ensure_connected]
    repeat' split
    all_goals simp_all
    all_goals decide
  · intro b0 b1 b2 b3 t hresp
    simp only [get_status, get_all_status_eq, read_m_coils, ensure_connected]
    simp [hresp, mCoilsOf]

/-- Witness for the amended C2: on `devMain` (M coils all `false`) the
served snapshot ends with `M100..M103`, all `false`. -/
theorem get_status_m_block_from_coils_a_witness :
    [("M100", false), ("M101", false), ("M102", false), ("M103", false)] <:+
      mCoilsOf (get_status devMain true "t").1 :=
  (get_status_m_block_from_coils_a devMain "t").2.2 false false false false [] (by decide)

/-- Counterexample to C2 as stated: on `devMain`, whose Coils-B block at
offsets 100..103 holds `[true, true, true, true]`, the status route
issues no Coils-B read at offset 100 at all, and the merged `M100` value
is `false` — the Coils-A value, not the Coils-B one. -/
theorem get_status_block_region_counterexample :
    Event.readCoils (Y_OFFSET + 100) 4 ∉ (get_status devMain true "t").2.2 ∧
    ("M100", false) ∈ mCoilsOf (get_status devMain true "t").1 ∧
    devMain.readCoilsResp (Y_OFFSET + 100) 4 = some [true, true, true, true] :=
  ⟨by decide, by decide, by decide⟩

/-- The per-entry write results of a bulk loop: each input address paired
with the outcome of its own write, with the connection flag threaded from
one write to the next exactly as in `bulk_steps`. -/
def bulkFlags (w : Bool → Nat → Bool → Bool × Bool × List Event) :
    Bool → List (Nat × Bool) → List (Nat × Bool)
  | _, [] => []
  | conn, (a, s) :: rest =>
      let (ok, conn1, _) := w conn a s
      (a, ok) :: bulkFlags w conn1 rest

/-- Inserting a fresh key into a Python dict appends it. -/
lemma dictInsert_of_not_mem (k : Nat) (v : Bool) (l : List (Nat × Bool))
    (h : k ∉ l.map Prod.fst) : dictInsert k v l = l ++ [(k, v)] := by
  induction l with
  | nil => rfl
  | cons p rest ih =>
      rcases p with ⟨k', v'⟩
      have hne : ¬(k' = k) := by
        intro hk
        exact h (by simp [hk])
      have hrest : k ∉ rest.map Prod.fst := by
        intro hk
        exact h (by simp [hk])
      simp [dictInsert, hne, ih hrest]

/-- Loop invariant of the bulk-write loop: with distinct input addresses,
the results dictionary accumulates one entry per input entry (in order)
and the success counter counts the entries whose write succeeded. -/
lemma bulk_steps_spec (w : Bool → Nat → Bool → Bool × Bool × List Event) :
    ∀ (items : List (Nat × Bool)) (conn : Bool) (results : List (Nat × Bool)) (cnt : Nat)
      (evs : List Event),
      (items.map Prod.fst).Nodup →
      (∀ k ∈ items.map Prod.fst, k ∉ results.map Prod.fst) →
      (bulk_steps w conn items results cnt evs).1 = results ++ bulkFlags w conn items ∧
      (bulk_steps w conn items results cnt evs).2.1 =
        cnt + ((bulkFlags w conn items).filter (fun p => p.2)).length := by
  intro items
  induction items with
  | nil => intro conn results cnt evs _ _; simp [bulk_steps, bulkFlags]
  | cons p rest ih =>
      rcases p with ⟨a, s⟩
      intro conn results cnt evs hnd hdisj
      rcases hw : w conn a s with ⟨ok, c1, evs1⟩
      have ha : a ∉ results.map Prod.fst := hdisj a (by simp)
      simp only [List.map_cons, List.nodup_cons] at hnd
      have hdisj' : ∀ k ∈ rest.map Prod.fst, k ∉ (dictInsert a ok results).map Prod.fst := by
        intro k hk
        rw [dictInsert_of_not_mem a ok results ha]
        simp only [List.map_append, List.mem_append, List.map_cons, List.map_nil,
          List.mem_singleton, not_or]
        exact ⟨hdisj k (by simp [hk]), by
          intro hka
          exact hnd.1 (hka ▸ hk)⟩
      have hstep : bulk_steps w conn ((a, s) :: rest) results cnt evs =
          bulk_steps w c1 rest (dictInsert a ok results)
            (cnt + (if ok then 1 else 0)) (evs ++ evs1) := by
        simp [bulk_steps, hw]
      rw [hstep]
      obtain ⟨h1, h2⟩ := ih c1 (dictInsert a ok results)
        (cnt + if ok then 1 else 0) (evs ++ evs1) hnd.2 hdisj'
      constructor
      · rw [h1, dictInsert_of_not_mem a ok results ha]
        simp [bulkFlags, hw]
      · rw [h2]
        simp only [bulkFlags, hw]
        cases ok <;> simp [List.filter] <;> omega

/-- The per-entry results keep the input addresses, in order. -/
lemma bulkFlags_keys (w : Bool → Nat → Bool → Bool × Bool × List Event) :
    ∀ (conn : Bool) (items : List (Nat × Bool)),
      (bulkFlags w conn items).map Prod.fst = items.map Prod.fst := by
  intro conn items
  induction items generalizing conn with
  | nil => rfl
  | cons p rest ih =>
      rcases p with ⟨a, s⟩
      rcases hw : w conn a s with ⟨ok, c1, evs1⟩
      simp [bulkFlags, hw, ih]

/-- C7: for every bulk-write payload with distinct addresses, both bulk
endpoints report one per-address success flag per entry (each flag being
that entry's own write result, keys in input order), `total` equal to the
number of entries, `succeeded` equal to the number of entries whose write
returned success, and an overall `success` flag that is true exactly when
`succeeded` equals `total`. -/
theorem bulk_write_reporting (dev : Device) (conn : Bool)
    (coils outputs : List (Nat × Bool))
    (hm : (coils.map Prod.fst).Nodup) (hy : (outputs.map Prod.fst).Nodup) :
    (bulk_write_m dev conn coils).1.total = coils.length ∧
    (bulk_write_m dev conn coils).1.results =
      bulkFlags (fun c a s => write_m_coil dev c a s) conn coils ∧
    (bulk_write_m dev conn coils).1.results.map Prod.fst = coils.map Prod.fst ∧
    (bulk_write_m dev conn coils).1.succeeded =
      ((bulk_write_m dev conn coils).1.results.filter (fun p => p.2)).length ∧
    ((bulk_write_m dev conn coils).1.success = true ↔
      (bulk_write_m dev conn coils).1.succeeded = (bulk_write_m dev conn coils).1.total) ∧
    (bulk_write_y dev conn outputs).1.total = outputs.length ∧
    (bulk_write_y dev conn outputs).1.results =
      bulkFlags (fun c a s => write_y_output dev c a s) conn outputs ∧
    (bulk_write_y dev conn outputs).1.results.map Prod.fst = outputs.map Prod.fst ∧
    (bulk_write_y dev conn outputs).1.succeeded =
      ((bulk_write_y dev conn outputs).1.results.filter (fun p => p.2)).length ∧
    ((bulk_write_y dev conn outputs).1.success = true ↔
      (bulk_write_y dev conn outputs).1.succeeded = (bulk_write_y dev conn outputs).1.total) := by
  obtain ⟨hm1, hm2⟩ := bulk_steps_spec (fun c a s => write_m_coil dev c a s) coils conn
    [] 0 [] hm (by simp)
  obtain ⟨hy1, hy2⟩ := bulk_steps_spec (fun c a s => write_y_output dev c a s) outputs conn
    [] 0 [] hy (by simp)
  refine ⟨rfl, ?_, ?_, ?_, ?_, rfl, ?_, ?_, ?_, ?_⟩ <;>
    simp [bulk_write_m, bulk_write_y, hm1, hm2, hy1, hy2, bulkFlags_keys, Nat.beq_eq]

/-- Witness for C7: the spec's example payload `{0: true, 3: false}`
against the M endpoint on `devMain` reports `total = 2`. -/
theorem bulk_write_reporting_witness :
    (bulk_write_m devMain true [(0, true), (3, false)]).1.total =
      ([(0, true), (3, false)] : List (Nat × Bool)).length :=
  (bulk_write_reporting devMain true [(0, true), (3, false)] [(0, true), (3, false)]
    (by decide) (by decide)).1

end PLC
